import Mathlib

/-!
Formal model of the core of the postal-tracking bot: the command/notification
loop of `user_bot.py` together with the admin status-update operation of
`app.py`.

Modelling conventions.  Python strings are `String` (the tracking-number
validator works on `List Char` so the regex structure is explicit); Unix
timestamps are `Int` (the code only compares and subtracts them, so the
field/integer distinction is irrelevant at the points the spec talks about);
the side-effecting environment — HTTP delivery outcomes and the wall clock —
is passed in as explicit function arguments, and an operation that Python
performs by raising/catching exceptions is modelled by an explicit outcome
flag.  Every definition follows the corresponding Python function; doc
comments cite the source.
-/

namespace PostalBot

/-- `MAX_RETRIES = 3` from `user_bot.py`. -/
def MAX_RETRIES : Nat := 3

/-- `RETRY_DELAY = 1` (seconds) from `user_bot.py`. -/
def RETRY_DELAY : Nat := 1

/-- `MAX_REQUESTS_PER_MINUTE = 30` from `user_bot.py`. -/
def MAX_REQUESTS_PER_MINUTE : Nat := 30

/-! ## Tracking-number validation (`is_valid_tracking_number`, identical in
`user_bot.py` and `app.py`) -/

/-- The character class `[A-Z]` of the Python regex. -/
def isUpperAZ (c : Char) : Bool := decide ('A' ≤ c) && decide (c ≤ 'Z')

/-- The character class `\d` of the Python regex.  (Python's `\d` also accepts
non-ASCII Unicode digits; since the code's regex and the spec's pattern use
the same `\d`, the equivalence proved below is insensitive to which digit set
is chosen, and we fix ASCII digits.) -/
def isDigitCh (c : Char) : Bool := c.isDigit

/-- `tracking_number.replace(" ", "")`. -/
def stripSpaces (s : List Char) : List Char := s.filter (fun c => c ≠ ' ')

/-- Consume exactly `n` characters satisfying `p` from the front, returning
the remainder (a run `p{n}` of the regex). -/
def consumeRun (p : Char → Bool) : Nat → List Char → Option (List Char)
  | 0, s => some s
  | _ + 1, [] => none
  | n + 1, c :: s => if p c then consumeRun p n s else none

/-- `re.match(r'^[A-Z]{2}\d{9}[A-Z]{2}$', t)` from the Python validator.
Python's `$` matches at the end of the string or just before a single final
newline, so the remainder after the three runs may be `""` or `"\n"`. -/
def reMatchTracking (t : List Char) : Bool :=
  match ((consumeRun isUpperAZ 2 t).bind (consumeRun isDigitCh 9)).bind
      (consumeRun isUpperAZ 2) with
  | some rest => decide (rest = [] ∨ rest = ['\n'])
  | none => false

/-- `is_valid_tracking_number` from `user_bot.py` (lines 39–57) and `app.py`
(lines 66–84): strip spaces, match the full regex, then check that the first
letter is one of `E`, `R`, `A` and that the last two characters are `IN`.
`t[0]` is modelled by `headD` (the regex guard guarantees non-emptiness) and
Python's `t[-2:]` by `drop (length - 2)` (which agrees with it on every
length, thanks to truncated subtraction). -/
def is_valid_tracking_number (s : String) : Bool :=
  let t := stripSpaces s.toList
  if !reMatchTracking t then false
  else if !(['E', 'R', 'A'] : List Char).contains (t.headD ' ') then false
  else if t.drop (t.length - 2) ≠ ['I', 'N'] then false
  else true

/-- The spec's pattern `[ERA][A-Z]\d{9}IN` as a full match, written from the
spec's words for comparison with the code's validator. -/
def specTrackingPattern (t : List Char) : Bool :=
  match ((consumeRun (fun c => (['E', 'R', 'A'] : List Char).contains c) 1 t).bind
      (consumeRun isUpperAZ 1)).bind (consumeRun isDigitCh 9) with
  | some rest => decide (rest = ['I', 'N'])
  | none => false

/-! ## Rate limiter (`RateLimiter`, `user_bot.py` lines 71–86) -/

/-- The `RateLimiter` object: `max_requests`, `time_window`, and the
per-recipient dict `requests` (a `defaultdict(list)`, modelled as an
association list defaulting to `[]`). -/
structure RateLimiter where
  max_requests : Nat
  time_window : Int
  requests : List (String × List Int)

/-- Python dict assignment `d[k] = v` on a dict modelled as an
insertion-ordered association list: replace the entry if the key is present,
else append. -/
def dictSet {β : Type} (m : List (String × β)) (k : String) (v : β) :
    List (String × β) :=
  if (m.lookup k).isSome then
    m.map (fun kv => if kv.1 = k then (k, v) else kv)
  else m ++ [(k, v)]

/-- `self.requests[chat_id]` (with the `defaultdict` default `[]`). -/
def getRequests (rl : RateLimiter) (chat_id : String) : List Int :=
  (rl.requests.lookup chat_id).getD []

/-- `self.requests[chat_id] = ts`: replace the entry if present, else append. -/
def setRequests (rl : RateLimiter) (chat_id : String) (ts : List Int) : RateLimiter :=
  { rl with requests := dictSet rl.requests chat_id ts }

/-- `RateLimiter.is_allowed`: prune timestamps outside the window
(`current_time - t < self.time_window` is kept), refuse if the pruned count
has reached `max_requests`, otherwise append the current time and allow. -/
def is_allowed (rl : RateLimiter) (chat_id : String) (now : Int) : Bool × RateLimiter :=
  let pruned := (getRequests rl chat_id).filter (fun t => decide (now - t < rl.time_window))
  if rl.max_requests ≤ pruned.length then
    (false, setRequests rl chat_id pruned)
  else
    (true, setRequests rl chat_id (pruned ++ [now]))

/-- A sequence of `is_allowed` calls for one recipient at the given times,
returning the outcomes in order. -/
def runCalls : RateLimiter → String → List Int → List Bool × RateLimiter
  | rl, _, [] => ([], rl)
  | rl, chat_id, t :: ts =>
    let p := is_allowed rl chat_id t
    let q := runCalls p.2 chat_id ts
    (p.1 :: q.1, q.2)

/-! ## Tracking store (`DatabaseManager` in `user_bot.py`, plus the admin
update route of `app.py`).  The `tracking` table (primary key
`tracking_number`) is modelled as an insertion-ordered list of rows. -/

/-- The `TrackingInfo` dataclass / a row of the `tracking` table. -/
structure TrackingInfo where
  tracking_number : String
  chat_id : String
  status : String
  status_details : String
  last_updated : Int
deriving DecidableEq

/-- `DatabaseManager.add_tracking` (`user_bot.py` lines 120–143): a `SELECT`
by tracking number first; if a row exists, return `False` without writing,
otherwise `INSERT` the row and return `True`. -/
def add_tracking (db : List TrackingInfo) (info : TrackingInfo) :
    Bool × List TrackingInfo :=
  match db.find? (fun r => r.tracking_number == info.tracking_number) with
  | some _ => (false, db)
  | none => (true, db ++ [info])

/-- The admin `POST /api/tracking/update` route (`app.py` lines 268–318):
404 (here `false`) when the tracking number has no row, otherwise `UPDATE`
status, details and `last_updated` on the rows with that tracking number. -/
def update_tracking (db : List TrackingInfo) (tn new_status new_details : String)
    (now : Int) : Bool × List TrackingInfo :=
  match db.find? (fun r => r.tracking_number == tn) with
  | none => (false, db)
  | some _ =>
    (true, db.map (fun r =>
      if r.tracking_number == tn then
        { r with status := new_status, status_details := new_details, last_updated := now }
      else r))

/-- `DatabaseManager.cleanup_old_tracking`: `DELETE` the rows with
`last_updated` strictly below the cutoff. -/
def cleanup_old_tracking (db : List TrackingInfo) (cutoff : Int) : List TrackingInfo :=
  db.filter (fun r => decide (cutoff ≤ r.last_updated))

/-- The store states reachable from the empty database through the write
operations of the system: bot-side inserts, admin-side status updates, and
the age-based purge. -/
inductive Reachable : List TrackingInfo → Prop
  | empty : Reachable []
  | add (db : List TrackingInfo) (info : TrackingInfo) :
      Reachable db → Reachable (add_tracking db info).2
  | update (db : List TrackingInfo) (tn st det : String) (now : Int) :
      Reachable db → Reachable (update_tracking db tn st det now).2
  | cleanup (db : List TrackingInfo) (cutoff : Int) :
      Reachable db → Reachable (cleanup_old_tracking db cutoff)

/-- Which templated reply `handle_track_command` selects. -/
inductive TrackReply where
  | invalidFormat
  | trackingStarted
  | registrationError
deriving DecidableEq

/-- `TelegramBot.handle_track_command` (`user_bot.py` lines 293–317), with
the message send abstracted to the choice of reply: invalid format → error
template; `add_tracking` succeeded → confirmation; `add_tracking` returned
`False` → the "error registering your tracking number" message. -/
def handle_track_command (db : List TrackingInfo) (chat_id tn : String) (now : Int) :
    TrackReply × List TrackingInfo :=
  if !is_valid_tracking_number tn then (.invalidFormat, db)
  else
    let r := add_tracking db
      ⟨tn, chat_id, "Order Placed",
       "Your order has been placed and is being processed.", now⟩
    if r.1 then (.trackingStarted, r.2) else (.registrationError, r.2)

/-! ## Message sending with retry (`TelegramBot.send_message`,
`user_bot.py` lines 220–243) -/

/-- The environment of one `send_message` call: `deliverOk k` is whether the
HTTP post of invocation `k` succeeds (`false` = `requests.RequestException`,
which the code catches), and `timeAt k` is the clock value the rate limiter
sees on invocation `k`. -/
structure SendEnv where
  deliverOk : Nat → Bool
  timeAt : Nat → Int

/-- What one `send_message` call did: its return value, the rate-limiter
state it leaves behind, how many HTTP posts it made, and how many seconds it
spent in `time.sleep` between attempts. -/
structure SendResult where
  ok : Bool
  limiter : RateLimiter
  posts : Nat
  sleptSeconds : Nat

/-- `TelegramBot.send_message`: check the rate limiter first (returning
`False` with no delivery attempt on refusal); post; on success return `True`;
on a caught exception, if `retry_count < MAX_RETRIES` sleep `RETRY_DELAY` and
recurse with `retry_count + 1`, else return `False`.  The recursion is the
code's self-invocation, bounded exactly as in the source. -/
def send_message (env : SendEnv) (rl : RateLimiter) (chat_id : String)
    (retry_count : Nat) : SendResult :=
  let a := is_allowed rl chat_id (env.timeAt retry_count)
  if !a.1 then ⟨false, a.2, 0, 0⟩
  else if env.deliverOk retry_count then ⟨true, a.2, 1, 0⟩
  else if retry_count < MAX_RETRIES then
    let r := send_message env a.2 chat_id (retry_count + 1)
    ⟨r.ok, r.limiter, r.posts + 1, r.sleptSeconds + RETRY_DELAY⟩
  else ⟨false, a.2, 1, 0⟩
termination_by MAX_RETRIES + 1 - retry_count

/-! ## The change-detection loop body (`TelegramBot.run`,
`user_bot.py` lines 334–402) -/

/-- One entry of the in-memory `last_status_check` dict:
`{'status': ..., 'timestamp': ...}`. -/
structure Checkpoint where
  status : String
  timestamp : Int
deriving DecidableEq

/-- The dict key `f"{tracking_number}_{chat_id}"`. -/
def ckptKey (tn chat_id : String) : String := tn ++ "_" ++ chat_id

/-- `last_status_check[key] = v`: dict assignment. -/
def setCkpt (m : List (String × Checkpoint)) (k : String) (v : Checkpoint) :
    List (String × Checkpoint) :=
  dictSet m k v

/-- The outcome of scanning: the updated checkpoint map and how many
notification sends were attempted. -/
structure ScanOut where
  ckpts : List (String × Checkpoint)
  sendAttempts : Nat
deriving DecidableEq

/-- The body of the per-record status-check loop (`user_bot.py` lines
365–389) for one record: if its key is absent from `last_status_check`,
insert the baseline checkpoint and do nothing else; if present and
`last_updated > checkpoint.timestamp and status != checkpoint.status`,
attempt one send (`sendOk` is `send_message`'s return value) and advance the
checkpoint only when the send returned `True`; otherwise do nothing. -/
def scanStep (m : List (String × Checkpoint)) (r : TrackingInfo) (sendOk : Bool) :
    ScanOut :=
  let key := ckptKey r.tracking_number r.chat_id
  match m.lookup key with
  | none => ⟨setCkpt m key ⟨r.status, r.last_updated⟩, 0⟩
  | some cp =>
    if cp.timestamp < r.last_updated ∧ r.status ≠ cp.status then
      if sendOk then ⟨setCkpt m key ⟨r.status, r.last_updated⟩, 1⟩
      else ⟨m, 1⟩
    else ⟨m, 0⟩

/-- One cycle's full scan: fold `scanStep` over the records returned by
`get_all_tracking`, each paired with its send outcome, totalling the send
attempts. -/
def statusScan : List (String × Checkpoint) → List (TrackingInfo × Bool) → ScanOut
  | m, [] => ⟨m, 0⟩
  | m, (r, s) :: rest =>
    let o := scanStep m r s
    let o' := statusScan o.ckpts rest
    ⟨o'.ckpts, o.sendAttempts + o'.sendAttempts⟩

/-- The end-of-cycle sweep (`user_bot.py` lines 391–394): keep exactly the
entries with `current_time - v['timestamp'] < 86400`. -/
def sweepCheckpoints (m : List (String × Checkpoint)) (now : Int) :
    List (String × Checkpoint) :=
  m.filter (fun kv => decide (now - kv.2.timestamp < 86400))

/-! ## The inbound-command phase of a cycle (`user_bot.py` lines 346–361).
The `for update in updates` loop has no per-command exception handler: an
exception raised while dispatching a command propagates to the
`except Exception` of the `while True` loop, which logs, sleeps and starts
the next cycle. -/

/-- An inbound command of one cycle's batch, with the environment's verdict
on whether dispatching it raises an exception. -/
structure InboundCommand where
  chat_id : String
  text : String
  raisesOnDispatch : Bool
deriving DecidableEq

/-- The command phase of one cycle: dispatch the batch in order; the first
command whose dispatch raises ends the cycle (the exception is caught only
at the main-loop boundary).  Returns the commands whose dispatch was invoked,
in order, and whether the cycle was aborted. -/
def runCommandBatch : List InboundCommand → List InboundCommand × Bool
  | [] => ([], false)
  | c :: cs =>
    if c.raisesOnDispatch then ([c], true)
    else
      let r := runCommandBatch cs
      (c :: r.1, r.2)

/-! ## Association-list (Python dict) lemmas -/

theorem lookup_map_set {β : Type} (m : List (String × β)) (k : String) (v : β)
    (h : (m.lookup k).isSome) :
    (m.map (fun kv => if kv.1 = k then (k, v) else kv)).lookup k = some v := by
  induction m with
  | nil => simp [List.lookup] at h
  | cons kv t ih =>
    obtain ⟨a, b⟩ := kv
    by_cases hk : a = k
    · have hhead : (if (a, b).1 = k then (k, v) else (a, b)) = (k, v) := if_pos hk
      rw [List.map_cons, hhead]
      simp [List.lookup]
    · have hb : (k == a) = false := beq_eq_false_iff_ne.mpr (fun hkk => hk hkk.symm)
      have hhead : (if (a, b).1 = k then (k, v) else (a, b)) = (a, b) := if_neg hk
      simp only [List.lookup, hb] at h
      rw [List.map_cons, hhead]
      simp only [List.lookup, hb]
      exact ih h

theorem lookup_map_set_ne {β : Type} (m : List (String × β)) (k k' : String) (v : β)
    (hne : k' ≠ k) :
    (m.map (fun kv => if kv.1 = k then (k, v) else kv)).lookup k' = m.lookup k' := by
  induction m with
  | nil => simp
  | cons kv t ih =>
    obtain ⟨a, b⟩ := kv
    by_cases hk : a = k
    · subst hk
      have hb : (k' == a) = false := beq_eq_false_iff_ne.mpr hne
      have hhead : (if (a, b).1 = a then (a, v) else (a, b)) = (a, v) := if_pos rfl
      rw [List.map_cons, hhead]
      simp only [List.lookup, hb]
      exact ih
    · have hhead : (if (a, b).1 = k then (k, v) else (a, b)) = (a, b) := if_neg hk
      rw [List.map_cons, hhead]
      cases hb : (k' == a) with
      | true => simp only [List.lookup, hb]
      | false =>
        simp only [List.lookup, hb]
        exact ih

theorem lookup_append_single {β : Type} (m : List (String × β)) (k : String) (v : β)
    (h : m.lookup k = none) :
    (m ++ [(k, v)]).lookup k = some v := by
  induction m with
  | nil => simp [List.lookup]
  | cons kv t ih =>
    obtain ⟨a, b⟩ := kv
    cases hb : (k == a) with
    | true => simp [List.lookup, hb] at h
    | false =>
      simp only [List.lookup, hb] at h
      simp only [List.cons_append, List.lookup, hb]
      exact ih h

theorem lookup_append_single_ne {β : Type} (m : List (String × β)) (k k' : String)
    (v : β) (hne : k' ≠ k) :
    (m ++ [(k, v)]).lookup k' = m.lookup k' := by
  induction m with
  | nil =>
    have hb : (k' == k) = false := beq_eq_false_iff_ne.mpr hne
    simp [List.lookup, hb]
  | cons kv t ih =>
    obtain ⟨a, b⟩ := kv
    cases hb : (k' == a) with
    | true => simp [List.lookup, hb]
    | false => simp [List.lookup, hb, ih]

theorem lookup_dictSet_self {β : Type} (m : List (String × β)) (k : String) (v : β) :
    (dictSet m k v).lookup k = some v := by
  unfold dictSet
  split
  · exact lookup_map_set m k v (by assumption)
  · rename_i h
    have hn : m.lookup k = none := by
      cases hl : m.lookup k with
      | none => rfl
      | some w => rw [hl] at h; simp at h
    exact lookup_append_single m k v hn

theorem lookup_dictSet_ne {β : Type} (m : List (String × β)) (k k' : String) (v : β)
    (hne : k' ≠ k) : (dictSet m k v).lookup k' = m.lookup k' := by
  unfold dictSet
  split
  · exact lookup_map_set_ne m k k' v hne
  · exact lookup_append_single_ne m k k' v hne

/-! ## Claims about the change-detection loop body -/

/-- C1: for a tracked record whose key already has a checkpoint, the scan
attempts exactly one notification iff
`record.last_updated > checkpoint.timestamp ∧ record.status ≠ checkpoint.status`;
in particular a same-status update with a newer timestamp attempts none. -/
theorem c1_change_detection_iff
    (m : List (String × Checkpoint)) (r : TrackingInfo) (cp : Checkpoint)
    (sendOk : Bool)
    (h : m.lookup (ckptKey r.tracking_number r.chat_id) = some cp) :
    ((scanStep m r sendOk).sendAttempts
        = if cp.timestamp < r.last_updated ∧ r.status ≠ cp.status then 1 else 0)
    ∧ ((scanStep m r sendOk).sendAttempts = 1
        ↔ (cp.timestamp < r.last_updated ∧ r.status ≠ cp.status)) := by
  have hs : scanStep m r sendOk =
      if cp.timestamp < r.last_updated ∧ r.status ≠ cp.status then
        (if sendOk then
          ⟨setCkpt m (ckptKey r.tracking_number r.chat_id)
            ⟨r.status, r.last_updated⟩, 1⟩
        else ⟨m, 1⟩)
      else ⟨m, 0⟩ := by
    simp only [scanStep, h]
  rw [hs]
  split_ifs with hcond hsend <;> exact ⟨rfl, by simp [hcond]⟩

/-- Witness for C1: checkpoint at (In Transit, 100); an update to
(Delivered, 101) attempts one send, an update to (In Transit, 101) — same
status, newer timestamp — attempts none. -/
theorem c1_witness :
    ((scanStep [("EU430410927IN_7", ⟨"In Transit", 100⟩)]
        ⟨"EU430410927IN", "7", "Delivered", "d", 101⟩ true).sendAttempts = 1)
    ∧ ((scanStep [("EU430410927IN_7", ⟨"In Transit", 100⟩)]
        ⟨"EU430410927IN", "7", "In Transit", "d", 101⟩ true).sendAttempts = 0) := by
  constructor
  · exact (c1_change_detection_iff _ _ ⟨"In Transit", 100⟩ _
      (by decide)).2.mpr ⟨by decide, by decide⟩
  · have h := (c1_change_detection_iff
      [("EU430410927IN_7", ⟨"In Transit", 100⟩)]
      ⟨"EU430410927IN", "7", "In Transit", "d", 101⟩ ⟨"In Transit", 100⟩ true
      (by decide)).1
    rw [h]
    decide

/-- C2: on a detected change, the checkpoint for the record's key advances to
the record's (status, timestamp) iff the send succeeds (other keys are
untouched); a failed send leaves the whole map unchanged, so rescanning the
same record on the next cycle attempts the notification again. -/
theorem c2_checkpoint_advance_iff_send_success
    (m : List (String × Checkpoint)) (r : TrackingInfo) (cp : Checkpoint)
    (h : m.lookup (ckptKey r.tracking_number r.chat_id) = some cp)
    (hts : cp.timestamp < r.last_updated) (hst : r.status ≠ cp.status) :
    ((scanStep m r true).ckpts.lookup (ckptKey r.tracking_number r.chat_id)
        = some ⟨r.status, r.last_updated⟩
      ∧ ∀ k, k ≠ ckptKey r.tracking_number r.chat_id →
          (scanStep m r true).ckpts.lookup k = m.lookup k)
    ∧ (scanStep m r false).ckpts = m
    ∧ ∀ s, (scanStep (scanStep m r false).ckpts r s).sendAttempts = 1 := by
  have hcond : cp.timestamp < r.last_updated ∧ r.status ≠ cp.status := ⟨hts, hst⟩
  have hTrue : scanStep m r true =
      ⟨setCkpt m (ckptKey r.tracking_number r.chat_id)
        ⟨r.status, r.last_updated⟩, 1⟩ := by
    simp [scanStep, h, hcond]
  have hFalse : scanStep m r false = ⟨m, 1⟩ := by
    simp [scanStep, h, hcond]
  refine ⟨⟨?_, ?_⟩, ?_, ?_⟩
  · rw [hTrue]
    exact lookup_dictSet_self m _ _
  · intro k hk
    rw [hTrue]
    exact lookup_dictSet_ne m _ k _ hk
  · rw [hFalse]
  · intro s
    rw [hFalse]
    cases s <;> simp [scanStep, h, hcond]

/-- Witness for C2: checkpoint (A, 5), record (B, 6): a successful send
advances the checkpoint; a failed send leaves the map unchanged and the
rescan attempts again. -/
theorem c2_witness :
    ((scanStep [("T_1", ⟨"A", 5⟩)] ⟨"T", "1", "B", "d", 6⟩ true).ckpts.lookup
        (ckptKey "T" "1") = some ⟨"B", 6⟩)
    ∧ (scanStep [("T_1", ⟨"A", 5⟩)] ⟨"T", "1", "B", "d", 6⟩ false).ckpts
        = [("T_1", ⟨"A", 5⟩)]
    ∧ (scanStep ((scanStep [("T_1", ⟨"A", 5⟩)] ⟨"T", "1", "B", "d", 6⟩ false).ckpts)
        ⟨"T", "1", "B", "d", 6⟩ true).sendAttempts = 1 := by
  have H := c2_checkpoint_advance_iff_send_success
    [("T_1", ⟨"A", 5⟩)] ⟨"T", "1", "B", "d", 6⟩ ⟨"A", 5⟩
    (by decide) (by decide) (by decide)
  exact ⟨H.1.1, H.2.1, H.2.2 true⟩

/-- C3: a record whose (tracking_number, chat_id) key has no checkpoint gets
a baseline checkpoint carrying its current status and timestamp, no
notification is attempted, and no other key is touched — whatever the
record's status and whatever the send outcome would have been. -/
theorem c3_first_observation_baseline
    (m : List (String × Checkpoint)) (r : TrackingInfo) (sendOk : Bool)
    (h : m.lookup (ckptKey r.tracking_number r.chat_id) = none) :
    (scanStep m r sendOk).sendAttempts = 0
    ∧ (scanStep m r sendOk).ckpts.lookup (ckptKey r.tracking_number r.chat_id)
        = some ⟨r.status, r.last_updated⟩
    ∧ ∀ k, k ≠ ckptKey r.tracking_number r.chat_id →
        (scanStep m r sendOk).ckpts.lookup k = m.lookup k := by
  have hstep : scanStep m r sendOk =
      ⟨setCkpt m (ckptKey r.tracking_number r.chat_id)
        ⟨r.status, r.last_updated⟩, 0⟩ := by
    simp [scanStep, h]
  refine ⟨by rw [hstep], ?_, ?_⟩
  · rw [hstep]
    exact lookup_dictSet_self m _ _
  · intro k hk
    rw [hstep]
    exact lookup_dictSet_ne m _ k _ hk

/-- Witness for C3: first observation of a record already in the "Delivered"
state inserts a baseline and attempts no notification. -/
theorem c3_witness :
    (scanStep [] ⟨"T", "1", "Delivered", "d", 9⟩ true).sendAttempts = 0
    ∧ (scanStep [] ⟨"T", "1", "Delivered", "d", 9⟩ true).ckpts.lookup
        (ckptKey "T" "1") = some ⟨"Delivered", 9⟩ := by
  have H := c3_first_observation_baseline [] ⟨"T", "1", "Delivered", "d", 9⟩ true
    (by decide)
  exact ⟨H.1, H.2.1⟩

/-- C9, counterexample: an entry whose age is exactly 86400 seconds — 24
hours, which does not *exceed* 24 hours — is nevertheless removed by the
sweep (the code keeps an entry only when `now - timestamp < 86400`). -/
theorem c9_counterexample :
    sweepCheckpoints [("EU430410927IN_7", ⟨"In Transit", 0⟩)] 86400 = []
    ∧ ¬ ((86400 : Int) - 0 > 86400) := by
  decide

/-- C9, amended: the sweep retains exactly the entries whose age is strictly
below 24 hours (86400 s), i.e. removes exactly those aged 24 hours or more;
in particular a 25-hour-old entry is removed and a 23-hour-old one kept. -/
theorem c9_sweep_age_threshold :
    (∀ (m : List (String × Checkpoint)) (now : Int) (kv : String × Checkpoint),
        kv ∈ sweepCheckpoints m now ↔ kv ∈ m ∧ now - kv.2.timestamp < 86400)
    ∧ sweepCheckpoints [("T_1", ⟨"A", -90000⟩)] 0 = []
    ∧ sweepCheckpoints [("T_1", ⟨"A", -82800⟩)] 0 = [("T_1", ⟨"A", -82800⟩)] := by
  refine ⟨?_, by decide, by decide⟩
  intro m now kv
  simp [sweepCheckpoints, List.mem_filter]

/-- C4, counterexample: in a batch of two commands where dispatching the
first raises, the second command of the same batch is never dispatched — the
`for` loop over updates has no per-command exception handler. -/
theorem c4_counterexample :
    runCommandBatch [⟨"1", "/status", true⟩, ⟨"2", "/help", false⟩]
      = ([⟨"1", "/status", true⟩], true)
    ∧ (⟨"2", "/help", false⟩ : InboundCommand)
        ∉ (runCommandBatch [⟨"1", "/status", true⟩, ⟨"2", "/help", false⟩]).1 := by
  decide

/-- C4, amended: a raised exception while dispatching one command aborts the
rest of that cycle's batch — exactly the commands before and including the
failing one are dispatched, and the cycle is aborted (the exception is caught
only at the main-loop boundary, which starts the next cycle); when no
dispatch raises, every command of the batch is dispatched. -/
theorem c4_dispatch_failure_aborts_batch :
    (∀ (pre : List InboundCommand) (c : InboundCommand) (post : List InboundCommand),
        (∀ x ∈ pre, x.raisesOnDispatch = false) → c.raisesOnDispatch = true →
        runCommandBatch (pre ++ c :: post) = (pre ++ [c], true))
    ∧ (∀ cmds : List InboundCommand,
        (∀ x ∈ cmds, x.raisesOnDispatch = false) →
        runCommandBatch cmds = (cmds, false)) := by
  constructor
  · intro pre c post
    induction pre with
    | nil =>
      intro _ hc
      simp [runCommandBatch, hc]
    | cons x xs ih =>
      intro hpre hc
      have hx : x.raisesOnDispatch = false := hpre x (by simp)
      have hxs : ∀ y ∈ xs, y.raisesOnDispatch = false :=
        fun y hy => hpre y (by simp [hy])
      simp [runCommandBatch, hx, ih hxs hc]
  · intro cmds
    induction cmds with
    | nil =>
      intro _
      simp [runCommandBatch]
    | cons x xs ih =>
      intro h
      have hx : x.raisesOnDispatch = false := h x (by simp)
      have hxs : ∀ y ∈ xs, y.raisesOnDispatch = false :=
        fun y hy => h y (by simp [hy])
      simp [runCommandBatch, hx, ih hxs]

/-- Witness for the amended C4: concrete batches for both conjuncts. -/
theorem c4_witness :
    runCommandBatch [⟨"1", "/help", false⟩, ⟨"2", "/status", true⟩, ⟨"3", "/help", false⟩]
      = ([⟨"1", "/help", false⟩, ⟨"2", "/status", true⟩], true)
    ∧ runCommandBatch [⟨"1", "/help", false⟩, ⟨"2", "/track X", false⟩]
      = ([⟨"1", "/help", false⟩, ⟨"2", "/track X", false⟩], false) := by
  constructor
  · exact c4_dispatch_failure_aborts_batch.1
      [⟨"1", "/help", false⟩] ⟨"2", "/status", true⟩ [⟨"3", "/help", false⟩]
      (by decide) (by decide)
  · exact c4_dispatch_failure_aborts_batch.2
      [⟨"1", "/help", false⟩, ⟨"2", "/track X", false⟩] (by decide)

/-- `self.requests[chat_id]` right after the assignment
`self.requests[chat_id] = ts` is `ts`. -/
theorem getRequests_setRequests (rl : RateLimiter) (chat_id : String)
    (ts : List Int) : getRequests (setRequests rl chat_id ts) chat_id = ts := by
  unfold getRequests setRequests
  simp [lookup_dictSet_self]

/-- C5: a call is allowed iff the count of the recipient's timestamps inside
the window is strictly below `max_requests`; every call leaves exactly the
pruned in-window timestamps, with the current time appended on allow.
Concretely, with `max_requests = 3` and `window = 60`, calls at times
0, 1, 2 succeed, a fourth at 30 fails, and one at 70 (window elapsed)
succeeds again. -/
theorem c5_rate_limiter :
    (∀ (rl : RateLimiter) (chat_id : String) (now : Int),
        ((is_allowed rl chat_id now).1 = true
          ↔ ((getRequests rl chat_id).filter
              (fun t => decide (now - t < rl.time_window))).length < rl.max_requests)
        ∧ getRequests (is_allowed rl chat_id now).2 chat_id
            = (if rl.max_requests ≤ ((getRequests rl chat_id).filter
                  (fun t => decide (now - t < rl.time_window))).length
               then (getRequests rl chat_id).filter
                  (fun t => decide (now - t < rl.time_window))
               else (getRequests rl chat_id).filter
                  (fun t => decide (now - t < rl.time_window)) ++ [now]))
    ∧ (runCalls ⟨3, 60, []⟩ "u" [0, 1, 2, 30, 70]).1
        = [true, true, true, false, true] := by
  refine ⟨?_, by decide⟩
  intro rl chat_id now
  by_cases h : rl.max_requests ≤ ((getRequests rl chat_id).filter
      (fun t => decide (now - t < rl.time_window))).length
  · have e : is_allowed rl chat_id now
        = (false, setRequests rl chat_id ((getRequests rl chat_id).filter
            (fun t => decide (now - t < rl.time_window)))) := by
      simp [is_allowed, h]
    rw [e]
    refine ⟨iff_of_false (by simp) (by omega), ?_⟩
    rw [getRequests_setRequests]
    simp [h]
  · have e : is_allowed rl chat_id now
        = (true, setRequests rl chat_id ((getRequests rl chat_id).filter
            (fun t => decide (now - t < rl.time_window)) ++ [now])) := by
      simp [is_allowed, h]
    rw [e]
    refine ⟨iff_of_true rfl (Nat.not_le.mp h), ?_⟩
    rw [getRequests_setRequests]
    simp [h]

/-! ## Store lemmas -/

theorem find?_append_of_none {α : Type} (l₁ l₂ : List α) (p : α → Bool)
    (h : l₁.find? p = none) : (l₁ ++ l₂).find? p = l₂.find? p := by
  induction l₁ with
  | nil => simp
  | cons a t ih =>
    cases hp : p a with
    | true => rw [List.find?_cons_of_pos _ hp] at h; cases h
    | false =>
      rw [List.find?_cons_of_neg _ (by simp [hp])] at h
      rw [List.cons_append, List.find?_cons_of_neg _ (by simp [hp])]
      exact ih h

/-- `add_tracking` succeeds exactly when no row with the tracking number is
present. -/
theorem add_tracking_fst (db : List TrackingInfo) (i : TrackingInfo) :
    (add_tracking db i).1 = true
      ↔ db.find? (fun r => r.tracking_number == i.tracking_number) = none := by
  unfold add_tracking
  cases hf : db.find? (fun r => r.tracking_number == i.tracking_number) <;>
    simp [hf]

/-- C7: after a successful registration of `i`, a second `add_tracking` with
the same tracking number returns `false` and leaves the store unchanged, the
store holds exactly one row with that tracking number, and a second `/track`
command for it is answered with the registration-error message. -/
theorem c7_duplicate_registration_rejected
    (db : List TrackingInfo) (i j : TrackingInfo)
    (hij : i.tracking_number = j.tracking_number)
    (h1 : (add_tracking db i).1 = true) :
    add_tracking (add_tracking db i).2 j = (false, (add_tracking db i).2)
    ∧ ((add_tracking db i).2.filter
        (fun r => r.tracking_number == j.tracking_number)).length = 1
    ∧ ∀ (chat_id : String) (now : Int),
        is_valid_tracking_number j.tracking_number = true →
        handle_track_command (add_tracking db i).2 chat_id j.tracking_number now
          = (.registrationError, (add_tracking db i).2) := by
  have hf : db.find? (fun r => r.tracking_number == i.tracking_number) = none :=
    (add_tracking_fst db i).mp h1
  have hdb1 : (add_tracking db i).2 = db ++ [i] := by
    unfold add_tracking
    rw [hf]
  have hfj : db.find? (fun r => r.tracking_number == j.tracking_number) = none := by
    rw [← hij]
    exact hf
  have hmem : ∀ r ∈ db, ¬ (r.tracking_number == j.tracking_number) = true :=
    List.find?_eq_none.mp hfj
  have hfind1 : (db ++ [i]).find?
      (fun r => r.tracking_number == j.tracking_number) = some i := by
    rw [find?_append_of_none db _ _ hfj]
    simp [hij]
  refine ⟨?_, ?_, ?_⟩
  · rw [hdb1]
    unfold add_tracking
    rw [hfind1]
  · rw [hdb1, List.filter_append]
    have hdbnil : db.filter (fun r => r.tracking_number == j.tracking_number) = [] :=
      List.filter_eq_nil_iff.mpr hmem
    rw [hdbnil]
    simp [hij]
  · intro chat_id now hvalid
    unfold handle_track_command
    rw [hvalid]
    have : (add_tracking (add_tracking db i).2
        ⟨j.tracking_number, chat_id, "Order Placed",
         "Your order has been placed and is being processed.", now⟩)
        = (false, (add_tracking db i).2) := by
      rw [hdb1]
      unfold add_tracking
      rw [hfind1]
    rw [this]
    simp

/-- Witness for C7: registering `EU430410927IN` for recipient "7", then again
for recipient "8", leaves exactly the first row and reports the
registration-error reply. -/
theorem c7_witness :
    add_tracking [⟨"EU430410927IN", "7", "Order Placed", "d", 5⟩]
        ⟨"EU430410927IN", "8", "Order Placed", "d", 6⟩
      = (false, [⟨"EU430410927IN", "7", "Order Placed", "d", 5⟩])
    ∧ handle_track_command [⟨"EU430410927IN", "7", "Order Placed", "d", 5⟩]
        "8" "EU430410927IN" 6
      = (.registrationError, [⟨"EU430410927IN", "7", "Order Placed", "d", 5⟩]) := by
  have H := c7_duplicate_registration_rejected []
    ⟨"EU430410927IN", "7", "Order Placed", "d", 5⟩
    ⟨"EU430410927IN", "8", "Order Placed", "d", 6⟩
    rfl (by decide)
  exact ⟨H.1, H.2.2 "8" 6 (by decide)⟩

/-- C10: tracking-number uniqueness is global, not per recipient: every
reachable store has pairwise-distinct tracking numbers, and `add_tracking`
returns `false` whenever any row — whoever its recipient is — already has the
tracking number. -/
theorem c10_tracking_number_globally_unique :
    (∀ db, Reachable db → (db.map (fun r => r.tracking_number)).Nodup)
    ∧ (∀ (db : List TrackingInfo) (i : TrackingInfo),
        (∃ r ∈ db, r.tracking_number = i.tracking_number) →
        (add_tracking db i).1 = false) := by
  constructor
  · intro db hdb
    induction hdb with
    | empty => simp
    | add db info _ ih =>
      unfold add_tracking
      cases hf : db.find? (fun r => r.tracking_number == info.tracking_number) with
      | some r => exact ih
      | none =>
        have hnot : info.tracking_number ∉ db.map (fun r => r.tracking_number) := by
          intro hmem
          obtain ⟨r, hr, he⟩ := List.mem_map.mp hmem
          exact absurd (by simp [he]) (List.find?_eq_none.mp hf r hr)
        simp only [List.map_append, List.map_cons, List.map_nil]
        exact List.Nodup.append ih (List.nodup_singleton _) (by simpa using hnot)
    | update db tn st det now _ ih =>
      unfold update_tracking
      cases hf : db.find? (fun r => r.tracking_number == tn) with
      | none => exact ih
      | some r =>
        have hmap : (db.map (fun r =>
            if r.tracking_number == tn then
              { r with status := st, status_details := det, last_updated := now }
            else r)).map (fun r => r.tracking_number)
            = db.map (fun r => r.tracking_number) := by
          rw [List.map_map]
          refine List.map_congr_left ?_
          intro x _
          by_cases hx : x.tracking_number = tn <;> simp [hx]
        rw [hmap]
        exact ih
    | cleanup db cutoff _ ih =>
      exact List.Nodup.sublist ((List.filter_sublist db).map _) ih
  · intro db i ⟨r, hr, he⟩
    unfold add_tracking
    cases hf : db.find? (fun r => r.tracking_number == i.tracking_number) with
    | some _ => rfl
    | none => exact absurd (by simp [he]) (List.find?_eq_none.mp hf r hr)

/-- Witness for C10: a store reached by one insert has distinct keys, and a
second recipient cannot register the number the first already tracks. -/
theorem c10_witness :
    (([⟨"EU430410927IN", "7", "Order Placed", "d", 5⟩] : List TrackingInfo).map
        (fun r => r.tracking_number)).Nodup
    ∧ (add_tracking [⟨"EU430410927IN", "7", "Order Placed", "d", 5⟩]
        ⟨"EU430410927IN", "8", "In Transit", "x", 9⟩).1 = false := by
  constructor
  · have hreach : Reachable [⟨"EU430410927IN", "7", "Order Placed", "d", 5⟩] := by
      have h := Reachable.add [] ⟨"EU430410927IN", "7", "Order Placed", "d", 5⟩
        Reachable.empty
      simpa [add_tracking] using h
    exact c10_tracking_number_globally_unique.1 _ hreach
  · exact c10_tracking_number_globally_unique.2 _ _
      ⟨⟨"EU430410927IN", "7", "Order Placed", "d", 5⟩, by simp, rfl⟩

/-! ## Send-retry lemmas -/

/-- When the recipient still has room in the window, `is_allowed` admits the
call and grows the stored timestamp list by at most one. -/
theorem is_allowed_of_room (rl : RateLimiter) (chat_id : String) (now : Int)
    (h : (getRequests rl chat_id).length < rl.max_requests) :
    (is_allowed rl chat_id now).1 = true
    ∧ (getRequests (is_allowed rl chat_id now).2 chat_id).length
        ≤ (getRequests rl chat_id).length + 1 := by
  have hle := List.length_filter_le (fun t => decide (now - t < rl.time_window))
    (getRequests rl chat_id)
  have hlt : ((getRequests rl chat_id).filter
      (fun t => decide (now - t < rl.time_window))).length < rl.max_requests :=
    lt_of_le_of_lt hle h
  unfold is_allowed
  rw [if_neg (Nat.not_le.mpr hlt)]
  refine ⟨rfl, ?_⟩
  rw [getRequests_setRequests]
  simp only [List.length_append, List.length_cons, List.length_nil]
  omega

/-- `is_allowed` never changes the limiter's configured maximum. -/
theorem is_allowed_max_requests (rl : RateLimiter) (chat_id : String) (now : Int) :
    (is_allowed rl chat_id now).2.max_requests = rl.max_requests := by
  unfold is_allowed setRequests
  by_cases h : rl.max_requests ≤ (List.filter (fun t => decide (now - t < rl.time_window))
      (getRequests rl chat_id)).length <;> simp [h]

/-- Retry exhaustion, by downward induction from `retry_count` to
`MAX_RETRIES`: if every delivery attempt fails and the rate limiter never
runs out of room, the call returns `false` after `MAX_RETRIES + 1 - rc`
posts and `MAX_RETRIES - rc` seconds of backoff sleep. -/
theorem send_message_exhaust_aux (env : SendEnv) (chat_id : String)
    (hfail : ∀ k, env.deliverOk k = false) :
    ∀ (n rc : Nat) (rl : RateLimiter), 4 - rc = n → rc ≤ 3 →
    (getRequests rl chat_id).length + (3 - rc) < rl.max_requests →
    (send_message env rl chat_id rc).ok = false
    ∧ (send_message env rl chat_id rc).posts = 4 - rc
    ∧ (send_message env rl chat_id rc).sleptSeconds = 3 - rc := by
  intro n
  induction n with
  | zero =>
    intro rc rl hn hrc _
    exfalso
    omega
  | succ n ih =>
    intro rc rl hn hrc hlen
    have hroom : (getRequests rl chat_id).length < rl.max_requests := by omega
    obtain ⟨h1, h2⟩ := is_allowed_of_room rl chat_id (env.timeAt rc) hroom
    rw [send_message]
    rw [h1, hfail rc]
    simp only [Bool.not_true, Bool.false_eq_true, if_false]
    by_cases hrc3 : rc < MAX_RETRIES
    · rw [if_pos hrc3]
      have hrc3' : rc < 3 := hrc3
      have hm := is_allowed_max_requests rl chat_id (env.timeAt rc)
      have := ih (rc + 1) (is_allowed rl chat_id (env.timeAt rc)).2
        (by omega) (by omega) (by omega)
      refine ⟨this.1, ?_, ?_⟩
      · simp only [this.2.1]
        omega
      · simp only [this.2.2, RETRY_DELAY]
        omega
    · rw [if_neg hrc3]
      have hrc3' : ¬ rc < 3 := hrc3
      refine ⟨rfl, ?_, ?_⟩ <;> simp only [] <;> omega

/-- Upper bound on delivery attempts: by the same downward induction,
`send_message` never posts more than `MAX_RETRIES + 1 - rc` times
(for `rc ≤ MAX_RETRIES`). -/
theorem send_message_posts_bound_aux (env : SendEnv) (chat_id : String) :
    ∀ (n rc : Nat) (rl : RateLimiter), 4 - rc = n → rc ≤ 3 →
    (send_message env rl chat_id rc).posts ≤ n := by
  intro n
  induction n with
  | zero =>
    intro rc rl hn hrc
    exfalso
    omega
  | succ n ih =>
    intro rc rl hn hrc
    rw [send_message]
    cases h1 : (is_allowed rl chat_id (env.timeAt rc)).1 with
    | false => simp
    | true =>
      simp only [Bool.not_true, Bool.false_eq_true, if_false]
      cases hd : env.deliverOk rc with
      | true => simp
      | false =>
        simp only [Bool.false_eq_true, if_false]
        by_cases hrc3 : rc < MAX_RETRIES
        · rw [if_pos hrc3]
          have hrc3' : rc < 3 := hrc3
          have := ih (rc + 1) (is_allowed rl chat_id (env.timeAt rc)).2
            (by omega) (by omega)
          simp only []
          omega
        · rw [if_neg hrc3]
          have hrc3' : ¬ rc < 3 := hrc3
          simp only []
          omega

/-- C8: with the rate limiter admitting every attempt, persistent transient
delivery failure makes `send_message` retry `MAX_RETRIES` (3) times with one
second of sleep between consecutive attempts (`MAX_RETRIES + 1` posts,
`MAX_RETRIES · RETRY_DELAY` seconds slept in total), and return `false` on
exhaustion; the total function always returns a Boolean (the code catches the
delivery exception, never re-raising).  When the rate limiter refuses, it
returns `false` having attempted no delivery at all; and in every run the
number of delivery attempts is at most `MAX_RETRIES + 1`. -/
theorem c8_send_retry_policy :
    (∀ (env : SendEnv) (rl : RateLimiter) (chat_id : String),
        (∀ k, env.deliverOk k = false) → getRequests rl chat_id = [] →
        MAX_RETRIES + 1 ≤ rl.max_requests →
        (send_message env rl chat_id 0).ok = false
        ∧ (send_message env rl chat_id 0).posts = MAX_RETRIES + 1
        ∧ (send_message env rl chat_id 0).sleptSeconds = MAX_RETRIES * RETRY_DELAY)
    ∧ (∀ (env : SendEnv) (rl : RateLimiter) (chat_id : String) (rc : Nat),
        (is_allowed rl chat_id (env.timeAt rc)).1 = false →
        (send_message env rl chat_id rc).ok = false
        ∧ (send_message env rl chat_id rc).posts = 0)
    ∧ (∀ (env : SendEnv) (rl : RateLimiter) (chat_id : String),
        (send_message env rl chat_id 0).posts ≤ MAX_RETRIES + 1) := by
  refine ⟨?_, ?_, ?_⟩
  · intro env rl chat_id hfail hempty hmax
    have hmax' : 4 ≤ rl.max_requests := hmax
    have := send_message_exhaust_aux env chat_id hfail 4 0 rl rfl (by omega)
      (by rw [hempty]; simpa using hmax')
    exact ⟨this.1, this.2.1, by simpa [MAX_RETRIES, RETRY_DELAY] using this.2.2⟩
  · intro env rl chat_id rc h
    rw [send_message, h]
    exact ⟨rfl, rfl⟩
  · intro env rl chat_id
    exact send_message_posts_bound_aux env chat_id 4 0 rl rfl (by omega)

/-- Witness for C8: a concrete always-failing delivery environment with a
fresh limiter (exhaustion case), and a limiter with `max_requests = 0`
(refusal case). -/
theorem c8_witness :
    ((send_message ⟨fun _ => false, fun _ => 0⟩ ⟨30, 60, []⟩ "u" 0).ok = false
      ∧ (send_message ⟨fun _ => false, fun _ => 0⟩ ⟨30, 60, []⟩ "u" 0).posts
          = MAX_RETRIES + 1
      ∧ (send_message ⟨fun _ => false, fun _ => 0⟩ ⟨30, 60, []⟩ "u" 0).sleptSeconds
          = MAX_RETRIES * RETRY_DELAY)
    ∧ ((send_message ⟨fun _ => false, fun _ => 0⟩ ⟨0, 60, []⟩ "u" 0).ok = false
      ∧ (send_message ⟨fun _ => false, fun _ => 0⟩ ⟨0, 60, []⟩ "u" 0).posts = 0) := by
  constructor
  · exact c8_send_retry_policy.1 ⟨fun _ => false, fun _ => 0⟩ ⟨30, 60, []⟩ "u"
      (fun _ => rfl) rfl (by decide)
  · exact c8_send_retry_policy.2.1 ⟨fun _ => false, fun _ => 0⟩ ⟨0, 60, []⟩ "u" 0
      (by decide)

/-! ## Validator lemmas -/

/-- `consumeRun p n` succeeds exactly on strings that start with `n`
characters satisfying `p`, returning the remainder. -/
theorem consumeRun_eq_some_iff (p : Char → Bool) :
    ∀ (n : Nat) (t r : List Char),
      consumeRun p n t = some r ↔
        ∃ a : List Char, a.length = n ∧ (∀ c ∈ a, p c = true) ∧ t = a ++ r := by
  intro n
  induction n with
  | zero =>
    intro t r
    simp only [consumeRun, Option.some.injEq]
    constructor
    · rintro rfl
      exact ⟨[], rfl, by simp, rfl⟩
    · rintro ⟨a, ha, _, rfl⟩
      rw [List.length_eq_zero.mp ha]
      rfl
  | succ n ih =>
    intro t r
    cases t with
    | nil =>
      simp only [consumeRun]
      constructor
      · intro h
        cases h
      · rintro ⟨a, ha, _, heq⟩
        exfalso
        have hlen := congrArg List.length heq
        simp only [List.length_nil, List.length_append, ha] at hlen
        omega
    | cons c t =>
      simp only [consumeRun]
      by_cases hp : p c = true
      · rw [if_pos hp, ih]
        constructor
        · rintro ⟨a, ha, hall, rfl⟩
          refine ⟨c :: a, by simp [ha], ?_, rfl⟩
          intro x hx
          rcases List.mem_cons.mp hx with rfl | hx
          · exact hp
          · exact hall x hx
        · rintro ⟨a, ha, hall, heq⟩
          cases a with
          | nil => simp at ha
          | cons c' a =>
            obtain ⟨rfl, rfl⟩ : c' = c ∧ t = a ++ r := by
              have h1 := (List.cons.injEq c t c' (a ++ r)).mp heq
              exact ⟨h1.1.symm, h1.2⟩
            exact ⟨a, by simpa using ha,
              fun x hx => hall x (List.mem_cons_of_mem _ hx), rfl⟩
      · rw [if_neg hp]
        constructor
        · intro h
          cases h
        · rintro ⟨a, ha, hall, heq⟩
          cases a with
          | nil => simp at ha
          | cons c' a =>
            have hc : c = c' := ((List.cons.injEq c t c' (a ++ r)).mp heq).1
            exact absurd (hc ▸ hall c' (by simp)) hp

/-- The Python regex match succeeds exactly on
(2 uppercase)(9 digits)(2 uppercase) followed by nothing or one newline. -/
theorem reMatchTracking_iff (t : List Char) :
    reMatchTracking t = true ↔
      ∃ u d v rest : List Char,
        u.length = 2 ∧ (∀ c ∈ u, isUpperAZ c = true)
        ∧ d.length = 9 ∧ (∀ c ∈ d, isDigitCh c = true)
        ∧ v.length = 2 ∧ (∀ c ∈ v, isUpperAZ c = true)
        ∧ (rest = [] ∨ rest = ['\n'])
        ∧ t = u ++ (d ++ (v ++ rest)) := by
  unfold reMatchTracking
  constructor
  · intro h
    cases hS : ((consumeRun isUpperAZ 2 t).bind (consumeRun isDigitCh 9)).bind
        (consumeRun isUpperAZ 2) with
    | none => rw [hS] at h; cases h
    | some rest =>
      rw [hS] at h
      have hrest : rest = [] ∨ rest = ['\n'] := of_decide_eq_true h
      obtain ⟨r2, hr2, hc3⟩ := Option.bind_eq_some.mp hS
      obtain ⟨r1, hc1, hc2⟩ := Option.bind_eq_some.mp hr2
      obtain ⟨u, hu, huall, rfl⟩ := (consumeRun_eq_some_iff _ _ _ _).mp hc1
      obtain ⟨d, hd, hdall, rfl⟩ := (consumeRun_eq_some_iff _ _ _ _).mp hc2
      obtain ⟨v, hv, hvall, rfl⟩ := (consumeRun_eq_some_iff _ _ _ _).mp hc3
      exact ⟨u, d, v, rest, hu, huall, hd, hdall, hv, hvall, hrest, rfl⟩
  · rintro ⟨u, d, v, rest, hu, huall, hd, hdall, hv, hvall, hrest, rfl⟩
    have hc1 : consumeRun isUpperAZ 2 (u ++ (d ++ (v ++ rest)))
        = some (d ++ (v ++ rest)) :=
      (consumeRun_eq_some_iff _ _ _ _).mpr ⟨u, hu, huall, rfl⟩
    have hc2 : consumeRun isDigitCh 9 (d ++ (v ++ rest)) = some (v ++ rest) :=
      (consumeRun_eq_some_iff _ _ _ _).mpr ⟨d, hd, hdall, rfl⟩
    have hc3 : consumeRun isUpperAZ 2 (v ++ rest) = some rest :=
      (consumeRun_eq_some_iff _ _ _ _).mpr ⟨v, hv, hvall, rfl⟩
    rw [hc1, Option.some_bind, hc2, Option.some_bind, hc3]
    exact decide_eq_true hrest

/-- The spec's pattern succeeds exactly on `e :: u :: digits ++ "IN"` with
`e ∈ {E,R,A}`, `u` uppercase and nine digits. -/
theorem specTrackingPattern_iff (t : List Char) :
    specTrackingPattern t = true ↔
      ∃ (e u : Char) (d : List Char),
        (['E', 'R', 'A'] : List Char).contains e = true ∧ isUpperAZ u = true
        ∧ d.length = 9 ∧ (∀ c ∈ d, isDigitCh c = true)
        ∧ t = e :: u :: (d ++ ['I', 'N']) := by
  unfold specTrackingPattern
  constructor
  · intro h
    cases hS : ((consumeRun (fun c => (['E', 'R', 'A'] : List Char).contains c) 1 t).bind
        (consumeRun isUpperAZ 1)).bind (consumeRun isDigitCh 9) with
    | none => rw [hS] at h; cases h
    | some rest =>
      rw [hS] at h
      have hrest : rest = ['I', 'N'] := of_decide_eq_true h
      subst hrest
      obtain ⟨r2, hr2, hc3⟩ := Option.bind_eq_some.mp hS
      obtain ⟨r1, hc1, hc2⟩ := Option.bind_eq_some.mp hr2
      obtain ⟨a1, ha1, ha1all, rfl⟩ := (consumeRun_eq_some_iff _ _ _ _).mp hc1
      obtain ⟨a2, ha2, ha2all, rfl⟩ := (consumeRun_eq_some_iff _ _ _ _).mp hc2
      obtain ⟨d, hd, hdall, rfl⟩ := (consumeRun_eq_some_iff _ _ _ _).mp hc3
      obtain ⟨e, rfl⟩ := List.length_eq_one.mp ha1
      obtain ⟨u, rfl⟩ := List.length_eq_one.mp ha2
      exact ⟨e, u, d, ha1all e (by simp), ha2all u (by simp), hd, hdall, by simp⟩
  · rintro ⟨e, u, d, he, hu, hd, hdall, rfl⟩
    have hc1 : consumeRun (fun c => (['E', 'R', 'A'] : List Char).contains c) 1
        (e :: u :: (d ++ ['I', 'N'])) = some (u :: (d ++ ['I', 'N'])) :=
      (consumeRun_eq_some_iff _ _ _ _).mpr ⟨[e], rfl, by simpa using he, rfl⟩
    have hc2 : consumeRun isUpperAZ 1 (u :: (d ++ ['I', 'N']))
        = some (d ++ ['I', 'N']) :=
      (consumeRun_eq_some_iff _ _ _ _).mpr ⟨[u], rfl, by simpa using hu, rfl⟩
    have hc3 : consumeRun isDigitCh 9 (d ++ ['I', 'N']) = some ['I', 'N'] :=
      (consumeRun_eq_some_iff _ _ _ _).mpr ⟨d, hd, hdall, rfl⟩
    rw [hc1, Option.some_bind, hc2, Option.some_bind, hc3]
    decide

/-- A letter of `{E,R,A}` is uppercase. -/
theorem upper_of_mem_ERA (c : Char)
    (h : (['E', 'R', 'A'] : List Char).contains c = true) : isUpperAZ c = true := by
  have hm : c = 'E' ∨ c = 'R' ∨ c = 'A' := by simpa using h
  rcases hm with rfl | rfl | rfl <;> decide

/-- Python `t[-2:]` on a list ending in two known characters. -/
theorem drop_append_pair (l : List Char) (a b : Char) :
    (l ++ [a, b]).drop ((l ++ [a, b]).length - 2) = [a, b] := by
  have h : (l ++ [a, b]).length - 2 = l.length := by simp
  rw [h, List.drop_left]

/-- The validator's post-strip checks coincide with the spec's pattern
`[ERA][A-Z]\d{9}IN`. -/
theorem validStripped_eq_spec (t : List Char) :
    (if !reMatchTracking t then false
     else if !(['E', 'R', 'A'] : List Char).contains (t.headD ' ') then false
     else if t.drop (t.length - 2) ≠ ['I', 'N'] then false
     else true) = specTrackingPattern t := by
  by_cases hm : reMatchTracking t = true
  · obtain ⟨u, d, v, rest, hu, huall, hd, hdall, hv, hvall, hrest, rfl⟩ :=
      (reMatchTracking_iff t).mp hm
    obtain ⟨u1, u2, rfl⟩ := List.length_eq_two.mp hu
    obtain ⟨v1, v2, rfl⟩ := List.length_eq_two.mp hv
    rcases hrest with rfl | rfl
    · -- no trailing newline: the string is u1 u2 d v1 v2
      have hshape : [u1, u2] ++ (d ++ ([v1, v2] ++ ([] : List Char)))
          = u1 :: u2 :: (d ++ [v1, v2]) := by simp
      rw [hm, hshape]
      have hdrop : (u1 :: u2 :: (d ++ [v1, v2])).drop
          ((u1 :: u2 :: (d ++ [v1, v2])).length - 2) = [v1, v2] := by
        have h2 : u1 :: u2 :: (d ++ [v1, v2]) = (u1 :: u2 :: d) ++ [v1, v2] := by
          simp
        rw [h2]
        exact drop_append_pair _ _ _
      rw [hdrop]
      simp only [Bool.not_true, Bool.false_eq_true, if_false, List.headD_cons]
      by_cases hE : (['E', 'R', 'A'] : List Char).contains u1 = true
      · simp only [hE]
        simp only [Bool.not_true, Bool.false_eq_true, if_false]
        by_cases hIN : [v1, v2] = ['I', 'N']
        · rw [if_neg (by simpa using hIN)]
          symm
          refine (specTrackingPattern_iff _).mpr ⟨u1, u2, d, hE,
            huall u2 (by simp), hd, hdall, ?_⟩
          obtain ⟨rfl, rfl⟩ : v1 = 'I' ∧ v2 = 'N' := by
            have h1 := (List.cons.injEq v1 [v2] 'I' ['N']).mp hIN
            have h2 := (List.cons.injEq v2 [] 'N' []).mp h1.2
            exact ⟨h1.1, h2.1⟩
          simp
        · rw [if_pos (by simpa using hIN)]
          symm
          rw [Bool.eq_false_iff]
          intro hs
          obtain ⟨e, w, d', he, hw, hd', hdall', heq⟩ :=
            (specTrackingPattern_iff _).mp hs
          have h1 := (List.cons.injEq u1 (u2 :: (d ++ [v1, v2])) e
            (w :: (d' ++ ['I', 'N']))).mp heq
          have h2 := (List.cons.injEq u2 (d ++ [v1, v2]) w
            (d' ++ ['I', 'N'])).mp h1.2
          have htail : d ++ [v1, v2] = d' ++ ['I', 'N'] := h2.2
          have : [v1, v2] = ['I', 'N'] :=
            (List.append_inj htail (hd.trans hd'.symm)).2
          exact hIN this
      · rw [Bool.not_eq_true] at hE
        simp only [hE, Bool.not_false, if_true]
        symm
        rw [Bool.eq_false_iff]
        intro hs
        obtain ⟨e, w, d', he, hw, hd', hdall', heq⟩ :=
          (specTrackingPattern_iff _).mp hs
        have h1 := (List.cons.injEq u1 (u2 :: (d ++ [v1, v2])) e
          (w :: (d' ++ ['I', 'N']))).mp heq
        rw [h1.1] at hE
        rw [he] at hE
        cases hE
    · -- trailing newline: the last-two check fails, and so does the pattern
      have hshape : [u1, u2] ++ (d ++ ([v1, v2] ++ ['\n']))
          = u1 :: u2 :: ((d ++ [v1]) ++ [v2, '\n']) := by simp
      rw [hm, hshape]
      have hdrop : (u1 :: u2 :: ((d ++ [v1]) ++ [v2, '\n'])).drop
          ((u1 :: u2 :: ((d ++ [v1]) ++ [v2, '\n'])).length - 2) = [v2, '\n'] := by
        have h2 : u1 :: u2 :: ((d ++ [v1]) ++ [v2, '\n'])
            = (u1 :: u2 :: (d ++ [v1])) ++ [v2, '\n'] := by simp
        rw [h2]
        exact drop_append_pair _ _ _
      rw [hdrop]
      have hne : [v2, '\n'] ≠ ['I', 'N'] := by
        intro hcon
        have h1 := (List.cons.injEq v2 ['\n'] 'I' ['N']).mp hcon
        have h2 := (List.cons.injEq '\n' [] 'N' []).mp h1.2
        cases h2.1
      simp only [Bool.not_true, Bool.false_eq_true, if_false, List.headD_cons]
      have hsf : specTrackingPattern (u1 :: u2 :: ((d ++ [v1]) ++ [v2, '\n']))
          = false := by
        rw [Bool.eq_false_iff]
        intro hs
        obtain ⟨e, w, d', he, hw, hd', hdall', heq⟩ :=
          (specTrackingPattern_iff _).mp hs
        have hlen := congrArg List.length heq
        simp only [List.length_cons, List.length_append, hd, hd'] at hlen
        omega
      rw [hsf]
      by_cases hE : (['E', 'R', 'A'] : List Char).contains u1 = true
      · simp only [hE]
        simp only [Bool.not_true, Bool.false_eq_true, if_false]
        rw [if_pos hne]
      · rw [Bool.not_eq_true] at hE
        simp [hE]
  · rw [Bool.not_eq_true] at hm
    rw [hm]
    simp only [Bool.not_false, if_true]
    symm
    rw [Bool.eq_false_iff]
    intro hs
    obtain ⟨e, u, d, he, hu, hd, hdall, rfl⟩ := (specTrackingPattern_iff _).mp hs
    have : reMatchTracking (e :: u :: (d ++ ['I', 'N'])) = true := by
      refine (reMatchTracking_iff _).mpr
        ⟨[e, u], d, ['I', 'N'], [], rfl, ?_, hd, hdall, rfl, by decide, Or.inl rfl, by simp⟩
      intro c hc
      rcases List.mem_cons.mp hc with rfl | hc
      · exact upper_of_mem_ERA c he
      · rcases List.mem_cons.mp hc with rfl | hc
        · exact hu
        · cases hc
    rw [hm] at this
    cases this

/-- C6: the validator accepts a string exactly when the string with all
spaces removed matches `[ERA][A-Z]\d{9}IN` (and rejects every other string);
consequently validity only depends on the string with spaces removed, so it
is invariant under inserting or removing interior spaces. -/
theorem c6_validator_matches_pattern :
    (∀ s : String,
        is_valid_tracking_number s = specTrackingPattern (stripSpaces s.toList))
    ∧ (∀ s t : String, stripSpaces s.toList = stripSpaces t.toList →
        is_valid_tracking_number s = is_valid_tracking_number t) := by
  have haux : ∀ s : String,
      is_valid_tracking_number s = specTrackingPattern (stripSpaces s.toList) := by
    intro s
    unfold is_valid_tracking_number
    exact validStripped_eq_spec (stripSpaces s.toList)
  refine ⟨haux, ?_⟩
  intro s t h
  rw [haux s, haux t, h]

/-- Witness for C6: `"EU 430 410 927 IN"` strips to `"EU430410927IN"`, and
the validator agrees with the pattern on it and is insensitive to the
spaces. -/
theorem c6_witness :
    stripSpaces ("EU 430 410 927 IN".toList)
        = stripSpaces ("EU430410927IN".toList)
    ∧ is_valid_tracking_number "EU 430 410 927 IN"
        = specTrackingPattern (stripSpaces ("EU 430 410 927 IN".toList))
    ∧ is_valid_tracking_number "EU 430 410 927 IN"
        = is_valid_tracking_number "EU430410927IN"
    ∧ is_valid_tracking_number "EU430410927IN" = true := by
  refine ⟨by decide, c6_validator_matches_pattern.1 _,
    c6_validator_matches_pattern.2 _ _ (by decide), by decide⟩

end PostalBot
